import Mathlib

/-!
Verification development for the hyni chat-client library.

The definitions below are shallow embeddings of the C++ sources:
the schema-driven facade (chat_api.cpp of the general_context revision,
src/unnamed/part_000), the curl transport adapter (http_client.cpp,
src/unnamed/part_004), the schema manager (src/unnamed/part_008 and
src/src/schema_manager.h), and the provider-specific contexts with the
legacy facade (src/src and src/unnamed).  External collaborators
(the nlohmann JSON parser, curl) appear as explicit parameters or as
small value models; members whose implementation file is absent from
the sources (general_context.cpp, http_client.h) are modelled from the
specification and say so in their doc comments.
-/

namespace hyni

/-- Value model of nlohmann::json: null, booleans, integers, strings,
arrays and objects.  Floating point numbers never reach the code paths
verified here, so numbers are carried as integers. -/
inductive json where
  | null : json
  | bool : Bool → json
  | num : Int → json
  | str : String → json
  | arr : List json → json
  | obj : List (String × json) → json

/-- Comparison of a json value against a string literal, the form every
equality test in the C++ sources takes (json == "text" is true exactly
when the value is that string). -/
def json.isStrVal : json → String → Bool
  | .str t, s => t == s
  | _, _ => false

/-- Key lookup inside the field list of a JSON object, first match wins. -/
def json.lookup : List (String × json) → String → Option json
  | [], _ => none
  | (k, v) :: rest, key => if k = key then some v else json.lookup rest key

/-- nlohmann json::contains: true exactly when the value is an object
holding the key. -/
def json.contains : json → String → Bool
  | .obj fields, key => (json.lookup fields key).isSome
  | _, _ => false

/-- Constant member access j[key] performed after a contains check, as the
C++ sources always do on const references; a missing key (undefined
behaviour in nlohmann) is modelled as null. -/
def json.member : json → String → json
  | .obj fields, key => (json.lookup fields key).getD .null
  | _, _ => .null

/-- Constant element access j[i] on an array; out of range or non-array
access (undefined behaviour in nlohmann) is modelled as null. -/
def json.at_idx : json → Nat → json
  | .arr xs, i => (xs.get? i).getD .null
  | _, _ => .null

/-- Mutable member access j[key] as used on the freshly parsed response in
chat_api::get_assistant_reply: a missing key on an object or a null value
yields null (the C++ inserts a null member), while a primitive or array
receiver throws type_error. -/
def json.at_key : json → String → Except String json
  | .obj fields, key => .ok ((json.lookup fields key).getD .null)
  | .null, _ => .ok .null
  | _, _ => .error "type_error: cannot use operator[] with a string argument"

/-- get of std::string on a json value: succeeds only on strings,
otherwise throws type_error. -/
def json.getString : json → Except String String
  | .str s => .ok s
  | _ => .error "type_error: type must be string"

/-- nlohmann json::empty: true for null and for empty arrays and objects,
false for every primitive value. -/
def json.isEmpty : json → Bool
  | .null => true
  | .arr xs => xs.isEmpty
  | .obj fields => fields.isEmpty
  | _ => false

/-- nlohmann json::is_array. -/
def json.isArray : json → Bool
  | .arr _ => true
  | _ => false

/-- nlohmann json::is_string. -/
def json.isString : json → Bool
  | .str _ => true
  | _ => false

/-- nlohmann json::is_object. -/
def json.isObject : json → Bool
  | .obj _ => true
  | _ => false

/-- Range-for iteration over a json value in nlohmann: the elements of an
array, the field values of an object, nothing for null, and the value
itself for a primitive. -/
def json.iterate : json → List json
  | .arr xs => xs
  | .obj fields => fields.map Prod.snd
  | .null => []
  | v => [v]

/-- One conversation turn as stored in a message list: the role string and
the content value of the stored JSON object. -/
structure message where
  role : String
  content : json

/-- Message-list state of general_context (header src/unnamed/part_003,
member m_messages); the other members play no part in the claims below. -/
structure general_context where
  messages : List message

/-- Modelled from the spec: general_context::clear_user_messages, whose
implementation file general_context.cpp is not under src/.  Spec section
4.4 describes the blocking send as one that optionally clears the last
user turn and appends a new one, so this removes the final message when
its role is user and keeps the list unchanged otherwise. -/
def clear_user_messages (ctx : general_context) : general_context :=
  match ctx.messages.getLast? with
  | some m => if m.role = "user" then { messages := ctx.messages.dropLast } else ctx
  | none => ctx

/-- Modelled from the spec: the text-only form of
general_context::add_user_message (general_context.cpp is not under
src/).  Spec section 4.2: it constructs a Message with role user and
insertion order is preserved, so the new turn is appended at the end;
the schema-shaped content is represented by the verbatim text. -/
def add_user_message (ctx : general_context) (text : String) : general_context :=
  { messages := ctx.messages ++ [⟨"user", json.str text⟩] }

/-- Modelled from the spec: the http_response struct of http_client.h,
which is not under src/; the fields are the ones http_client.cpp and
chat_api.cpp use (status_code, body, success, error_message; the headers
map is unused by the verified paths). -/
structure http_response where
  status_code : Int := 0
  body : String := ""
  success : Bool := false
  error_message : String := ""
deriving DecidableEq, Repr

/-- Outcome of the curl transfer inside http_client::post: either
curl_easy_perform reports an error code, carried here as its strerror
text, or the transfer completes with an HTTP status and the body bytes
accumulated by write_callback. -/
inductive curl_outcome where
  | curl_error (msg : String) : curl_outcome
  | completed (status : Int) (body : String) : curl_outcome
deriving DecidableEq, Repr

/-- http_client::post (src/unnamed/part_004, lines 62-92): on a curl
error the response keeps the curl diagnostic and success is false; on
completion success is exactly the 2xx range check on the status code. -/
def post : curl_outcome → http_response
  | .curl_error m => { error_message := m, success := false }
  | .completed st b =>
      { status_code := st, body := b, success := decide (200 ≤ st ∧ st < 300) }

/-- chat_api::send_message(message, cancel_check)
(src/unnamed/part_000, lines 12-30).  The context mutators come from the
spec-modelled general_context above; the JSON parser and
general_context::extract_text_response are abstract parameters, where a
parse .error models the nlohmann parse exception text and an ext .error
models an extraction exception, both rethrown by the catch clause as a
parse failure.  The returned pair is the thrown-or-returned value
together with the context state afterwards. -/
def send_message (ctx : general_context) (msg : String) (outcome : curl_outcome)
    (parse : String → Except String json)
    (ext : json → Except String String) :
    Except String String × general_context :=
  let ctx1 := add_user_message (clear_user_messages ctx) msg
  let resp := post outcome
  if !resp.success then
    (.error ("API request failed: " ++ resp.error_message), ctx1)
  else
    match parse resp.body with
    | .error e => (.error ("Failed to parse API response: " ++ e), ctx1)
    | .ok j =>
      match ext j with
      | .error e => (.error ("Failed to parse API response: " ++ e), ctx1)
      | .ok t => (.ok t, ctx1)

/-- The user-message scan at the top of the context-only overloads of
chat_api::send_message and send_message_stream (src/unnamed/part_000,
lines 88-99 and 124-135). -/
def has_user_message (ctx : general_context) : Bool :=
  ctx.messages.any (fun m => m.role == "user")

/-- chat_api::send_message(cancel_check), the overload that sends the
current context (src/unnamed/part_000, lines 85-115); it never mutates
the context, so only the thrown-or-returned value is produced. -/
def send_message_ctx (ctx : general_context) (outcome : curl_outcome)
    (parse : String → Except String json)
    (ext : json → Except String String) :
    Except String String :=
  if !has_user_message ctx then .error "No user message found in context"
  else
    let resp := post outcome
    if !resp.success then .error ("API request failed: " ++ resp.error_message)
    else
      match parse resp.body with
      | .error e => .error ("Failed to parse API response: " ++ e)
      | .ok j =>
        match ext j with
        | .error e => .error ("Failed to parse API response: " ++ e)
        | .ok t => .ok t

/-- Accumulating worker for std::getline: chars are consumed one by one,
a newline ends the current line, and end of input ends the final line;
a trailing newline therefore produces no empty final line. -/
def getline_go : List Char → List Char → List String
  | [], acc => [acc.reverse.asString]
  | '\n' :: cs, acc =>
    match cs with
    | [] => [acc.reverse.asString]
    | c :: cs2 => acc.reverse.asString :: getline_go (c :: cs2) []
  | c :: cs, acc => getline_go cs (c :: acc)

/-- The lines std::getline yields from an istringstream over the chunk,
as the stream handler of chat_api::send_message_stream reads them
(src/unnamed/part_000, lines 148-150): empty input yields no line, and a
final segment without a trailing newline is still yielded. -/
def getline_lines (s : String) : List String :=
  match s.data with
  | [] => []
  | c :: cs => getline_go (c :: cs) []

/-- The prefix test line.rfind of the data marker at position 0
(src/unnamed/part_000, line 151); the marker is ASCII so the byte count
and the character count agree. -/
def starts_with_data (line : String) : Bool :=
  line.data.take 6 == "data: ".data

/-- line.substr(6), the payload behind the data marker. -/
def data_payload (line : String) : String :=
  (line.data.drop 6).asString

/-- The line loop of the on_chunk handler in the context-only overload of
chat_api::send_message_stream (src/unnamed/part_000, lines 146-171),
returning the list of strings handed to the user callback for one
delivered chunk.  Lines without the data marker are skipped; a [DONE]
payload breaks out of the loop; an empty payload is skipped; a payload
on which parse fails (is_discarded) is skipped; an extraction exception
is caught outside the loop and silently drops the rest of the chunk;
an extracted empty content is skipped. -/
def process_stream_lines (parse : String → Except String json)
    (ext : json → Except String String) : List String → List String
  | [] => []
  | line :: rest =>
    if starts_with_data line then
      let payload := data_payload line
      if payload = "[DONE]" then []
      else if payload ≠ "" then
        match parse payload with
        | .error _ => process_stream_lines parse ext rest
        | .ok j =>
          match ext j with
          | .error _ => []
          | .ok content =>
            if content ≠ "" then content :: process_stream_lines parse ext rest
            else process_stream_lines parse ext rest
      else process_stream_lines parse ext rest
    else process_stream_lines parse ext rest

/-- One invocation of the streaming on_chunk handler on one delivered
chunk string. -/
def process_stream_chunk (parse : String → Except String json)
    (ext : json → Except String String) (chunk : String) : List String :=
  process_stream_lines parse ext (getline_lines chunk)

/-- The full sequence of user on_chunk invocations across a streaming
send: http_client::post_stream (src/unnamed/part_004, lines 121-166)
invokes the handler once per received chunk in arrival order, and the
handler lambda keeps no state between invocations. -/
def stream_emissions (parse : String → Except String json)
    (ext : json → Except String String) (chunks : List String) : List String :=
  chunks.flatMap (process_stream_chunk parse ext)

/-- The per-line behaviour claim C2 ascribes to the stream parser, written
from the words of the claim: only lines with the data marker are
processed, payloads that are not valid JSON are dropped, the delta is
extracted from each parsed frame, and every non-empty delta is reported. -/
def claimed_line_emission (parse : String → Except String json)
    (ext : json → Except String String) (line : String) : Option String :=
  if starts_with_data line then
    match parse (data_payload line) with
    | .error _ => none
    | .ok j =>
      match ext j with
      | .error _ => none
      | .ok t => if t ≠ "" then some t else none
  else none

/-- The stream behaviour claim C2 ascribes to the facade: each chunk is
split on newlines and every non-empty extracted delta of a parsed frame
triggers one on_chunk call, in arrival order. -/
def claimed_stream_emissions (parse : String → Except String json)
    (ext : json → Except String String) (chunks : List String) : List String :=
  chunks.flatMap (fun c => (getline_lines c).filterMap (claimed_line_emission parse ext))

/-- A concrete JSON parser instantiation for the closed examples below:
it accepts exactly the two quoted-string bodies those examples feed it,
in agreement with a real JSON parser on every string it is applied to
(a quoted string is valid JSON; the empty string and the [DONE] marker
are not). -/
def parse_stub : String → Except String json
  | "\"hi\"" => .ok (json.str "hi")
  | "\"Pong\"" => .ok (json.str "Pong")
  | _ => .error "syntax error"

/-- A concrete extraction instantiation for the closed examples: a schema
whose text path is empty returns a string terminal verbatim and fails on
any other shape (spec section 4.2, response extraction). -/
def ext_stub : json → Except String String
  | .str s => .ok s
  | _ => .error "ResponseShapeError"

/-- State of schema_manager (src/src/schema_manager.h): the registered
provider paths (an unordered_map, kept as an association list whose keys
are distinct) and the schema directory. -/
structure schema_manager where
  provider_paths : List (String × String)
  schema_directory : String := "./schemas/"

/-- The fragment of the filesystem the schema_manager consults: the paths
for which std::filesystem::exists holds, and for each directory the names
of the regular files a directory_iterator yields there (an absent
directory yields the empty listing). -/
structure file_system where
  files : List String
  dir_files : String → List String

/-- schema_manager::resolve_schema_path (src/unnamed/part_008, lines
69-75): a registered path wins, else the directory plus name plus the
json suffix. -/
def resolve_schema_path (m : schema_manager) (provider_name : String) : String :=
  match m.provider_paths.find? (fun np => np.1 == provider_name) with
  | some np => np.2
  | none => m.schema_directory ++ provider_name ++ ".json"

/-- Handle to a general_context produced by std::make_unique in
schema_manager::create_context; alloc_id records the identity of the
fresh allocation, so handles from distinct allocations are distinct. -/
structure general_context_handle where
  schema_path : String
  alloc_id : Nat
deriving DecidableEq, Repr

/-- schema_manager::create_context (src/unnamed/part_008, lines 27-36):
resolve the path, throw schema_exception when the file does not exist,
otherwise construct a brand new general_context with make_unique.  The
manager holds no cache; fresh_id is the identity of the allocation this
call performs, supplied by the allocator. -/
def create_context (m : schema_manager) (fs : file_system)
    (provider_name : String) (fresh_id : Nat) :
    Except String general_context_handle :=
  let schema_path := resolve_schema_path m provider_name
  if fs.files.contains schema_path then
    .ok { schema_path := schema_path, alloc_id := fresh_id }
  else
    .error ("Schema file not found for provider: " ++ provider_name
            ++ " at " ++ schema_path)

/-- Index of the last dot inside a filename, if any. -/
def last_dot_idx : List Char → Option Nat
  | [] => none
  | c :: cs =>
    match last_dot_idx cs with
    | some i => some (i + 1)
    | none => if c = '.' then some 0 else none

/-- std::filesystem::path::extension on a plain filename: the substring
from the last dot, except that a lone leading dot, the name made of one
dot and the name made of two dots give no extension. -/
def path_extension (name : String) : String :=
  if name = "." ∨ name = ".." then ""
  else
    match last_dot_idx name.data with
    | none => ""
    | some 0 => ""
    | some i => (name.data.drop i).asString

/-- std::filesystem::path::stem on a plain filename: what precedes the
extension. -/
def path_stem (name : String) : String :=
  if name = "." ∨ name = ".." then name
  else
    match last_dot_idx name.data with
    | none => name
    | some 0 => name
    | some i => (name.data.take i).asString

/-- The directory loop of schema_manager::get_available_providers
(src/unnamed/part_008, lines 49-59): every regular file with the json
extension contributes its stem unless that name is registered or already
collected. -/
def scan_schema_dir (pp : List (String × String)) (acc : List String) :
    List String → List String
  | [] => acc
  | entry :: rest =>
    if path_extension entry = ".json" then
      let provider_name := path_stem entry
      if (pp.find? (fun np => np.1 == provider_name)).isNone
          && !(acc.contains provider_name) then
        scan_schema_dir pp (acc ++ [provider_name]) rest
      else
        scan_schema_dir pp acc rest
    else
      scan_schema_dir pp acc rest

/-- schema_manager::get_available_providers (src/unnamed/part_008, lines
38-62): first the registered names whose files exist, then the stems
collected from the schema directory. -/
def get_available_providers (m : schema_manager) (fs : file_system) :
    List String :=
  scan_schema_dir m.provider_paths
    (m.provider_paths.filterMap
      (fun np => if fs.files.contains np.2 then some np.1 else none))
    (fs.dir_files m.schema_directory)

/-- Membership in the provider list as claim C7 words it: the union of
the registered names whose files exist and the stems of the json files
in the schema directory. -/
def c7_claimed_member (m : schema_manager) (fs : file_system)
    (name : String) : Prop :=
  (∃ p, (name, p) ∈ m.provider_paths ∧ p ∈ fs.files) ∨
  (∃ e, e ∈ fs.dir_files m.schema_directory ∧
        path_extension e = ".json" ∧ path_stem e = name)

/-- API_PROVIDER (src/unnamed/part_005). -/
inductive API_PROVIDER where
  | OpenAI | DeepSeek | ClaudeAI | Unknown
deriving DecidableEq, Repr

/-- QUESTION_TYPE (src/unnamed/part_005). -/
inductive QUESTION_TYPE where
  | General | Behavioral | SystemDesign | Coding
deriving DecidableEq, Repr

/-- The prompt struct (src/unnamed/part_005). -/
structure prompt where
  user_message : String := ""
  extended_message : String := ""
  system_message : String := ""
  question_type : QUESTION_TYPE := .General
  is_multi_turn : Bool := false
  image_base64 : String := ""
  mime_type : String := "image/png"
deriving DecidableEq, Repr

/-- prompt::has_image (src/unnamed/part_005). -/
def prompt.has_image (p : prompt) : Bool :=
  !p.image_base64.isEmpty && !p.mime_type.isEmpty

/-- prompt::get_combined_prompt (src/unnamed/part_005). -/
def prompt.get_combined_prompt (p : prompt) : String :=
  p.user_message ++ p.extended_message

/-- The mutable members the legacy provider contexts share: the message
history m_history and m_max_context_length (openai_context.h,
deepseek_context.h, claudeai_context.h). -/
structure provider_state where
  history : List message
  max_context_length : Nat

/-- Whether the first history entry is a system message, the check the
three trim_history implementations make. -/
def leading_system : List message → Bool
  | m :: _ => m.role == "system"
  | [] => false

/-- trim_history, textually identical in openai_context.cpp
(src/unnamed/part_006, lines 267-290), claudeai_context.cpp
(src/src/claudeai_context.cpp, lines 177-205) and deepseek_context.cpp
(src/src/deepseek_context.cpp, lines 180-203): when the history exceeds
the maximum it erases the range starting behind a preserved leading
system message. -/
def trim_history (st : provider_state) : provider_state :=
  if st.history.length ≤ st.max_context_length then st
  else
    let preserve := if leading_system st.history then 1 else 0
    let keep := min (st.max_context_length + preserve) st.history.length
    let rem := st.history.length - keep
    if rem > 0 then
      { st with history :=
          st.history.take preserve ++ st.history.drop (preserve + rem) }
    else st

/-- The json content item of shape type text used by the legacy contexts. -/
def text_item (t : String) : json :=
  json.obj [("type", .str "text"), ("text", .str t)]

namespace openai_context

/-- openai_context::add_user_message (src/unnamed/part_006, lines 19-70):
clear the history unless multi-turn, build the content array from the
text (combined prompt when the history is empty) and the optional
image_url item, insert a placeholder when the array stayed empty, push
the user message and trim. -/
def add_user_message (st : provider_state) (p : prompt) : provider_state :=
  let h0 := if !p.is_multi_turn then [] else st.history
  let content0 : List json :=
    if !p.user_message.isEmpty then
      [text_item (if h0.isEmpty then p.get_combined_prompt else p.user_message)]
    else []
  let content1 := content0 ++
    (if p.has_image then
      [json.obj [("type", .str "image_url"),
        ("image_url", .obj
          [("url", .str ("data:" ++ p.mime_type ++ ";base64," ++ p.image_base64))])]]
     else [])
  let content2 := if content1.isEmpty then [text_item "[empty message]"] else content1
  trim_history { st with history := h0 ++ [⟨"user", .arr content2⟩] }

/-- openai_context::add_assistant_message (src/unnamed/part_006, lines
73-85). -/
def add_assistant_message (st : provider_state) (msg : String) : provider_state :=
  trim_history { st with history := st.history ++ [⟨"assistant", .arr [text_item msg]⟩] }

/-- The text concatenation loop over content items used by the
process_response implementations: items of type text with a text member
contribute their text, which must be a string (get of std::string throws
otherwise). -/
def concat_text_items : List json → Except String String
  | [] => .ok ""
  | item :: rest =>
    if (item.member "type").isStrVal "text" && item.contains "text" then
      match (item.member "text").getString with
      | .error e => .error e
      | .ok t =>
        match concat_text_items rest with
        | .error e => .error e
        | .ok r => .ok (t ++ r)
    else concat_text_items rest

/-- openai_context::process_response (src/unnamed/part_006, lines
168-207): reads choices[0].message.content, accepting both the array of
text items and the plain string form, and appends the assistant message
when the collected content is non-empty; a result that throws leaves the
history untouched. -/
def process_response (st : provider_state) (response : json) :
    Except String provider_state :=
  if response.contains "choices" && !(response.member "choices").isEmpty then
    let choice := (response.member "choices").at_idx 0
    if choice.contains "message" && (choice.member "message").contains "content" then
      let content_json := (choice.member "message").member "content"
      match (if content_json.isArray then concat_text_items content_json.iterate
             else content_json.getString) with
      | .error e => .error e
      | .ok content =>
        if !content.isEmpty then .ok (add_assistant_message st content)
        else .ok st
    else .ok st
  else .ok st

/-- openai_context::set_max_context_length (src/unnamed/part_006, lines
209-215): clamp below by one, store, trim. -/
def set_max_context_length (st : provider_state) (len : Nat) : provider_state :=
  trim_history { st with max_context_length := max 1 len }

end openai_context

namespace claudeai_context

/-- claudeai_context::add_user_message (src/src/claudeai_context.cpp,
lines 26-76): like the OpenAI variant but with the Claude image source
shape and no placeholder for an empty content array. -/
def add_user_message (st : provider_state) (p : prompt) : provider_state :=
  let h0 := if !p.is_multi_turn then [] else st.history
  let content0 : List json :=
    if !p.user_message.isEmpty then
      [text_item (if h0.isEmpty then p.get_combined_prompt else p.user_message)]
    else []
  let content1 := content0 ++
    (if p.has_image then
      [json.obj [("type", .str "image"),
        ("source", .obj [("type", .str "base64"),
          ("media_type", .str p.mime_type),
          ("data", .str p.image_base64)])]]
     else [])
  trim_history { st with history := h0 ++ [⟨"user", .arr content1⟩] }

/-- claudeai_context::add_assistant_message (src/src/claudeai_context.cpp,
lines 78-87). -/
def add_assistant_message (st : provider_state) (msg : String) : provider_state :=
  trim_history { st with history := st.history ++ [⟨"assistant", .arr [text_item msg]⟩] }

/-- claudeai_context::process_response (src/src/claudeai_context.cpp,
lines 137-170): concatenates the text items found under content and,
when non-empty, stores an assistant message whose content is the plain
string, then trims. -/
def process_response (st : provider_state) (response : json) :
    Except String provider_state :=
  if response.contains "content" then
    match openai_context.concat_text_items (response.member "content").iterate with
    | .error e => .error e
    | .ok full_content =>
      if !full_content.isEmpty then
        .ok (trim_history
          { st with history := st.history ++ [⟨"assistant", .str full_content⟩] })
      else .ok st
  else .ok st

/-- claudeai_context::set_max_context_length (src/src/claudeai_context.cpp,
lines 172-175): clamp below by one and above by fifty, store, trim. -/
def set_max_context_length (st : provider_state) (len : Nat) : provider_state :=
  trim_history { st with max_context_length := min (max 1 len) 50 }

end claudeai_context

namespace deepseek_context

/-- deepseek_context::add_user_message (src/src/deepseek_context.cpp,
lines 15-33): plain string content, combined prompt when the history is
empty after the optional clear, push and trim. -/
def add_user_message (st : provider_state) (p : prompt) : provider_state :=
  let h0 := if !p.is_multi_turn then [] else st.history
  let content := if h0.isEmpty then p.get_combined_prompt else p.user_message
  trim_history { st with history := h0 ++ [⟨"user", .str content⟩] }

/-- deepseek_context::add_assistant_message (src/src/deepseek_context.cpp,
lines 35-43). -/
def add_assistant_message (st : provider_state) (msg : String) : provider_state :=
  trim_history { st with history := st.history ++ [⟨"assistant", .str msg⟩] }

/-- deepseek_context::process_response (src/src/deepseek_context.cpp,
lines 101-120): reads choices[0].message.content as a string and always
appends it as the assistant message. -/
def process_response (st : provider_state) (response : json) :
    Except String provider_state :=
  if response.contains "choices" && !(response.member "choices").isEmpty then
    let choice := (response.member "choices").at_idx 0
    if choice.contains "message" && (choice.member "message").contains "content" then
      match ((choice.member "message").member "content").getString with
      | .error e => .error e
      | .ok content => .ok (add_assistant_message st content)
    else .ok st
  else .ok st

/-- deepseek_context::set_max_context_length (src/src/deepseek_context.cpp,
lines 122-128): clamp below by one, store, trim. -/
def set_max_context_length (st : provider_state) (len : Nat) : provider_state :=
  trim_history { st with max_context_length := max 1 len }

end deepseek_context

/-- The add_user_message dispatch over the model_context subtype held by
the legacy chat_api (chat_api::create_context, src/src/chat_api.cpp,
lines 14-21; an Unknown provider never owns a context because the
constructor throws, so it is modelled as a no-op). -/
def add_user_message_dispatch :
    API_PROVIDER → provider_state → prompt → provider_state
  | .OpenAI, st, p => openai_context.add_user_message st p
  | .ClaudeAI, st, p => claudeai_context.add_user_message st p
  | .DeepSeek, st, p => deepseek_context.add_user_message st p
  | .Unknown, st, _ => st

/-- The process_response dispatch over the same subtypes. -/
def process_response_dispatch :
    API_PROVIDER → provider_state → json → Except String provider_state
  | .OpenAI, st, r => openai_context.process_response st r
  | .ClaudeAI, st, r => claudeai_context.process_response st r
  | .DeepSeek, st, r => deepseek_context.process_response st r
  | .Unknown, st, _ => .ok st

/-- Index of the first loop iteration of chat_api::send at which the
cancel predicate polls true, when there is one before the transfer
completes after transfer_iters iterations. -/
def first_true_below (cancel : Nat → Bool) (transfer_iters : Nat) : Option Nat :=
  (List.range transfer_iters).find? cancel

/-- Number of polls the curl multi loop of chat_api::send makes of the
cancel predicate: the loop condition polls once per iteration (after
checking still_running and the atomic flag, both short-circuiting) until
the transfer completes or a poll returns true. -/
def loop_polls (transfer_iters : Nat) (flag : Bool) (cancel : Nat → Bool) : Nat :=
  if flag then 0
  else
    match first_true_below cancel transfer_iters with
    | some t => t + 1
    | none => transfer_iters

/-- chat_api::send (src/src/chat_api.cpp, lines 212-245): add the user
turn, run the curl multi loop while still_running and neither the atomic
cancel flag nor the caller predicate fires, then throw the cancellation
error when either of them holds and return the accumulated buffer
otherwise.  transfer_iters is the number of curl_multi_perform rounds
the transfer needs; cancel gives the value of the caller predicate at
its successive polls, the check after the loop being the next poll;
flag is m_cancel_flag; read_buffer is what write_callback accumulated. -/
def send (prov : API_PROVIDER) (st : provider_state) (p : prompt)
    (transfer_iters : Nat) (flag : Bool) (cancel : Nat → Bool)
    (read_buffer : String) : Except String String × provider_state :=
  let st1 := add_user_message_dispatch prov st p
  let polls := loop_polls transfer_iters flag cancel
  if flag || cancel polls then (.error "Image request cancelled", st1)
  else (.ok read_buffer, st1)

/-- The api_response struct of the legacy chat_api
(src/src/chat_api.h, lines 15-23). -/
structure api_response where
  success : Bool
  content : String := ""
  error : String := ""
deriving DecidableEq, Repr

/-- The error.message lookup of chat_api::get_assistant_reply
(src/src/chat_api.cpp, lines 252-254): mutable member access on the
error value followed by get of std::string. -/
def error_message_of (response_json : json) : Except String String :=
  match (response_json.member "error").at_key "message" with
  | .error e => .error e
  | .ok v => v.getString

/-- The content item scan of chat_api::get_assistant_reply: objects of
type text with a text member contribute their text and flip success. -/
def content_items_scan : List json → Except String (Bool × String)
  | [] => .ok (false, "")
  | item :: rest =>
    if item.isObject && (item.member "type").isStrVal "text"
        && item.contains "text" then
      match (item.member "text").getString with
      | .error e => .error e
      | .ok t =>
        match content_items_scan rest with
        | .error e => .error e
        | .ok sc => .ok (true, t ++ sc.2)
    else content_items_scan rest

/-- The ClaudeAI arm of the provider switch in
chat_api::get_assistant_reply (src/src/chat_api.cpp, lines 265-278). -/
def extract_claude_content (response_json : json) :
    Except String (Bool × String) :=
  if response_json.contains "content" && (response_json.member "content").isArray then
    content_items_scan (response_json.member "content").iterate
  else .ok (false, "")

/-- The OpenAI and DeepSeek arm of the provider switch in
chat_api::get_assistant_reply (src/src/chat_api.cpp, lines 279-305). -/
def extract_openai_content (response_json : json) :
    Except String (Bool × String) :=
  if response_json.contains "choices" && !(response_json.member "choices").isEmpty
      && ((response_json.member "choices").at_idx 0).contains "message" then
    let msg := ((response_json.member "choices").at_idx 0).member "message"
    let content := msg.member "content"
    if content.isString then
      match content.getString with
      | .error e => .error e
      | .ok s => .ok (true, s)
    else if content.isArray then content_items_scan content.iterate
    else .ok (false, "")
  else .ok (false, "")

/-- chat_api::get_assistant_reply (src/src/chat_api.cpp, lines 247-320)
on an input string that json::parse accepted, paired with the context
state afterwards: a top-level error member returns a failure carrying
the error message before process_response runs; otherwise
process_response updates the history, the provider switch extracts the
content, and exceptions along the way surface as processing failures. -/
def get_assistant_reply (prov : API_PROVIDER) (st : provider_state)
    (response_json : json) : api_response × provider_state :=
  if response_json.contains "error" then
    match error_message_of response_json with
    | .ok m => (⟨false, "", m⟩, st)
    | .error e => (⟨false, "", "Error processing response: " ++ e⟩, st)
  else
    match process_response_dispatch prov st response_json with
    | .error e => (⟨false, "", "Error processing response: " ++ e⟩, st)
    | .ok st2 =>
      if prov = .Unknown then (⟨false, "", "Unsupported API provider"⟩, st2)
      else
        match (if prov = .ClaudeAI then extract_claude_content response_json
               else extract_openai_content response_json) with
        | .error e => (⟨false, "", "Error processing response: " ++ e⟩, st2)
        | .ok sc =>
          if sc.1 && !sc.2.isEmpty then (⟨true, sc.2, ""⟩, st2)
          else (⟨false, "", "Malformed API response: missing expected content"⟩, st2)

/-!  Theorems. -/

/-- Every branch of the blocking send leaves the context at the state
reached after the initial clear and the appended user turn. -/
theorem send_message_state (ctx : general_context) (msg : String)
    (outcome : curl_outcome) (parse : String → Except String json)
    (ext : json → Except String String) :
    (send_message ctx msg outcome parse ext).2 =
      add_user_message (clear_user_messages ctx) msg := by
  unfold send_message
  dsimp only
  split
  · rfl
  · split
    · rfl
    · split <;> rfl

/-- Clearing the last user turn never touches assistant messages. -/
theorem clear_user_messages_filter_assistant (ctx : general_context) :
    (clear_user_messages ctx).messages.filter (fun m => m.role == "assistant") =
      ctx.messages.filter (fun m => m.role == "assistant") := by
  unfold clear_user_messages
  cases hl : ctx.messages.getLast? with
  | none => rfl
  | some m =>
    by_cases hr : m.role = "user"
    · have hne : ctx.messages ≠ [] := by
        intro h0
        rw [h0] at hl
        cases hl
      have hm : ctx.messages.getLast hne = m := by
        have := List.getLast?_eq_getLast ctx.messages hne
        rw [hl] at this
        exact (Option.some.inj this).symm
      simp only [hr, if_pos]
      conv_rhs => rw [← List.dropLast_append_getLast hne]
      rw [List.filter_append]
      have : (fun m => m.role == "assistant") (ctx.messages.getLast hne) = false := by
        rw [hm]
        simp [hr]
      simp [List.filter, this]
    · simp [hr]

/-- C1, counterexample: a successful blocking send whose sink reported a
2xx completion, whose body parsed and whose extraction returned Pong;
the call returns Pong but the context afterwards holds exactly the user
turn, so no assistant message was appended and the conversation does not
end with an assistant turn, contrary to the claim. -/
theorem send_message_no_assistant_cex :
    (send_message ⟨[]⟩ "Ping" (.completed 200 "\"Pong\"") parse_stub ext_stub).1 =
      .ok "Pong" ∧
    (send_message ⟨[]⟩ "Ping" (.completed 200 "\"Pong\"") parse_stub ext_stub).2.messages =
      [⟨"user", json.str "Ping"⟩] ∧
    ∀ m ∈ (send_message ⟨[]⟩ "Ping"
        (.completed 200 "\"Pong\"") parse_stub ext_stub).2.messages,
      m.role ≠ "assistant" := by
  refine ⟨rfl, rfl, ?_⟩
  intro m hm
  rw [show (send_message ⟨[]⟩ "Ping"
      (.completed 200 "\"Pong\"") parse_stub ext_stub).2.messages =
    [⟨"user", json.str "Ping"⟩] from rfl] at hm
  have hm2 : m = ⟨"user", json.str "Ping"⟩ := by
    simpa using hm
  rw [hm2]
  decide

/-- C1 (amended): when the sink reports a 2xx completion and the body
parses and extraction succeeds, send_message returns the extracted text
but appends nothing beyond the user turn of the call itself; the
conversation afterwards ends with that user turn, not with an assistant
turn. -/
theorem send_message_returns_text_without_append
    (ctx : general_context) (msg body t : String) (st : Int) (j : json)
    (parse : String → Except String json) (ext : json → Except String String)
    (h1 : 200 ≤ st) (h2 : st < 300)
    (hp : parse body = .ok j) (he : ext j = .ok t) :
    send_message ctx msg (.completed st body) parse ext =
      (.ok t, add_user_message (clear_user_messages ctx) msg) ∧
    (add_user_message (clear_user_messages ctx) msg).messages.getLast? =
      some ⟨"user", json.str msg⟩ := by
  constructor
  · unfold send_message
    simp [post, h1, h2, hp, he]
  · unfold add_user_message
    simp

/-- C1 witness. -/
theorem send_message_returns_text_without_append_witness :
    send_message ⟨[]⟩ "Ping" (.completed 200 "\"Pong\"") parse_stub ext_stub =
      (.ok "Pong", add_user_message (clear_user_messages ⟨[]⟩) "Ping") ∧
    (add_user_message (clear_user_messages ⟨[]⟩) "Ping").messages.getLast? =
      some ⟨"user", json.str "Ping"⟩ :=
  send_message_returns_text_without_append ⟨[]⟩ "Ping" "\"Pong\"" "Pong" 200
    (json.str "Pong") parse_stub ext_stub (by decide) (by decide) rfl rfl

/-- C3: on a sink failure or a status outside the 2xx range the blocking
sends raise the transport error carrying the sink diagnostic, the curl
error and the out-of-range status are exactly the failure cases of the
sink, and a normal return happens only on a 2xx completion.  Both
blocking overloads are covered; the context-only overload is taken past
its user-message guard. -/
theorem send_message_transport_error_and_2xx
    (ctx : general_context) (msg : String) (outcome : curl_outcome)
    (parse : String → Except String json) (ext : json → Except String String)
    (hu : has_user_message ctx = true) :
    ((post outcome).success = false →
      (send_message ctx msg outcome parse ext).1 =
        .error ("API request failed: " ++ (post outcome).error_message) ∧
      send_message_ctx ctx outcome parse ext =
        .error ("API request failed: " ++ (post outcome).error_message)) ∧
    (∀ m, outcome = .curl_error m → (post outcome).success = false) ∧
    (∀ st b, outcome = .completed st b → (st < 200 ∨ 300 ≤ st) →
      (post outcome).success = false) ∧
    (∀ t, (send_message ctx msg outcome parse ext).1 = .ok t →
      ∃ st b, outcome = .completed st b ∧ 200 ≤ st ∧ st < 300) ∧
    (∀ t, send_message_ctx ctx outcome parse ext = .ok t →
      ∃ st b, outcome = .completed st b ∧ 200 ≤ st ∧ st < 300) := by
  refine ⟨?_, ?_, ?_, ?_, ?_⟩
  · intro hf
    constructor
    · unfold send_message
      simp [hf]
    · unfold send_message_ctx
      simp [hu, hf]
  · intro m hm
    subst hm
    rfl
  · intro st b hb hrange
    subst hb
    simp only [post, decide_eq_false_iff_not]
    intro hand
    rcases hrange with hlt | hge
    · omega
    · omega
  · intro t ht
    cases outcome with
    | curl_error m =>
      exfalso
      unfold send_message at ht
      simp [post] at ht
    | completed st b =>
      refine ⟨st, b, rfl, ?_⟩
      by_cases hok : 200 ≤ st ∧ st < 300
      · exact hok
      · exfalso
        unfold send_message at ht
        have hfail : (post (.completed st b)).success = false := by
          simp [post, hok]
        simp [hfail] at ht
  · intro t ht
    cases outcome with
    | curl_error m =>
      exfalso
      unfold send_message_ctx at ht
      simp [hu, post] at ht
    | completed st b =>
      refine ⟨st, b, rfl, ?_⟩
      by_cases hok : 200 ≤ st ∧ st < 300
      · exact hok
      · exfalso
        unfold send_message_ctx at ht
        have hfail : (post (.completed st b)).success = false := by
          simp [post, hok]
        simp [hu, hfail] at ht

/-- C3 witness. -/
theorem send_message_transport_error_and_2xx_witness :
    has_user_message ⟨[⟨"user", json.str "a"⟩]⟩ = true ∧
    ((post (.curl_error "boom")).success = false →
      (send_message ⟨[⟨"user", json.str "a"⟩]⟩ "b"
          (.curl_error "boom") parse_stub ext_stub).1 =
        .error ("API request failed: " ++ (post (.curl_error "boom")).error_message) ∧
      send_message_ctx ⟨[⟨"user", json.str "a"⟩]⟩
          (.curl_error "boom") parse_stub ext_stub =
        .error ("API request failed: " ++ (post (.curl_error "boom")).error_message)) :=
  ⟨rfl,
   (send_message_transport_error_and_2xx ⟨[⟨"user", json.str "a"⟩]⟩ "b"
     (.curl_error "boom") parse_stub ext_stub rfl).1⟩

/-- C4, counterexample: a context already holding the user turn a; the
send of b fails at the sink, yet the context afterwards holds only the
user turn b, which is neither the pre-send list nor the pre-send list
plus the appended user turn — the initial clear removed the earlier
user turn. -/
theorem failed_send_frame_cex :
    (send_message ⟨[⟨"user", json.str "a"⟩]⟩ "b"
        (.curl_error "boom") parse_stub ext_stub).1 =
      .error "API request failed: boom" ∧
    (send_message ⟨[⟨"user", json.str "a"⟩]⟩ "b"
        (.curl_error "boom") parse_stub ext_stub).2.messages =
      [⟨"user", json.str "b"⟩] ∧
    ¬ ((send_message ⟨[⟨"user", json.str "a"⟩]⟩ "b"
          (.curl_error "boom") parse_stub ext_stub).2.messages =
        [⟨"user", json.str "a"⟩] ∨
       (send_message ⟨[⟨"user", json.str "a"⟩]⟩ "b"
          (.curl_error "boom") parse_stub ext_stub).2.messages =
        [⟨"user", json.str "a"⟩, ⟨"user", json.str "b"⟩]) := by
  refine ⟨rfl, rfl, ?_⟩
  intro h
  rcases h with h | h
  · rw [(rfl : (send_message ⟨[⟨"user", json.str "a"⟩]⟩ "b"
        (.curl_error "boom") parse_stub ext_stub).2.messages =
      [⟨"user", json.str "b"⟩])] at h
    injection h with hh _
    injection hh with _ hc
    injection hc with hs
    exact absurd hs (by decide)
  · rw [(rfl : (send_message ⟨[⟨"user", json.str "a"⟩]⟩ "b"
        (.curl_error "boom") parse_stub ext_stub).2.messages =
      [⟨"user", json.str "b"⟩])] at h
    injection h with _ ht
    exact List.noConfusion ht

/-- C4 (amended): a failed send leaves the message list equal to the
pre-send list with the last user turn removed by the initial clear plus
the user turn this call appended; in particular no assistant message is
added or removed. -/
theorem failed_send_messages_shape
    (ctx : general_context) (msg : String) (outcome : curl_outcome)
    (parse : String → Except String json) (ext : json → Except String String)
    (e : String)
    (h : (send_message ctx msg outcome parse ext).1 = .error e) :
    (send_message ctx msg outcome parse ext).2.messages =
      (clear_user_messages ctx).messages ++ [⟨"user", json.str msg⟩] ∧
    (send_message ctx msg outcome parse ext).2.messages.filter
        (fun m => m.role == "assistant") =
      ctx.messages.filter (fun m => m.role == "assistant") := by
  have hst := send_message_state ctx msg outcome parse ext
  constructor
  · rw [hst]
    rfl
  · rw [hst]
    unfold add_user_message
    rw [List.filter_append]
    have h1 : (fun m => m.role == "assistant")
        (⟨"user", json.str msg⟩ : message) = false := rfl
    simp [List.filter, h1, clear_user_messages_filter_assistant]

/-- C4 witness. -/
theorem failed_send_messages_shape_witness :
    (send_message ⟨[⟨"user", json.str "a"⟩]⟩ "b"
        (.curl_error "boom") parse_stub ext_stub).2.messages =
      (clear_user_messages ⟨[⟨"user", json.str "a"⟩]⟩).messages ++
        [⟨"user", json.str "b"⟩] ∧
    (send_message ⟨[⟨"user", json.str "a"⟩]⟩ "b"
        (.curl_error "boom") parse_stub ext_stub).2.messages.filter
        (fun m => m.role == "assistant") =
      ([⟨"user", json.str "a"⟩] : List message).filter
        (fun m => m.role == "assistant") :=
  failed_send_messages_shape ⟨[⟨"user", json.str "a"⟩]⟩ "b"
    (.curl_error "boom") parse_stub ext_stub "API request failed: boom" rfl

/-- Helper: on a line list that contains no done sentinel and whose
parsed frames all extract, the handler loop emits exactly the claimed
per-line emissions. -/
theorem process_lines_eq_claimed
    (parse : String → Except String json) (ext : json → Except String String)
    (hpe : ∀ j, parse "" ≠ .ok j) :
    ∀ ls : List String,
    (∀ line ∈ ls, ¬(starts_with_data line = true ∧ data_payload line = "[DONE]")) →
    (∀ line ∈ ls, ∀ j, starts_with_data line = true →
        parse (data_payload line) = .ok j → ∃ t, ext j = .ok t) →
    process_stream_lines parse ext ls =
      ls.filterMap (claimed_line_emission parse ext)
  | [], _, _ => rfl
  | line :: rest, hdone, hext => by
    have hdr : ∀ l ∈ rest,
        ¬(starts_with_data l = true ∧ data_payload l = "[DONE]") :=
      fun l hl => hdone l (List.mem_cons_of_mem _ hl)
    have her : ∀ l ∈ rest, ∀ j, starts_with_data l = true →
        parse (data_payload l) = .ok j → ∃ t, ext j = .ok t :=
      fun l hl => hext l (List.mem_cons_of_mem _ hl)
    have ih := process_lines_eq_claimed parse ext hpe rest hdr her
    simp only [process_stream_lines, List.filterMap_cons, claimed_line_emission]
    by_cases hs : starts_with_data line
    · simp only [hs, if_true]
      have hnd : ¬ data_payload line = "[DONE]" := by
        intro hd
        exact hdone line (List.mem_cons_self _ _) ⟨hs, hd⟩
      simp only [hnd, if_false]
      by_cases hemp : data_payload line = ""
      · simp only [hemp, ne_eq, not_true_eq_false, if_false]
        cases hp : parse "" with
        | error e => simpa [hp] using ih
        | ok j => exact absurd hp (hpe j)
      · simp only [ne_eq, hemp, not_false_eq_true, if_true]
        cases hp : parse (data_payload line) with
        | error e => simpa using ih
        | ok j =>
          obtain ⟨t, ht⟩ :=
            hext line (List.mem_cons_self _ _) j hs hp
          by_cases hte : t = ""
          · simp [ht, hte, ih]
          · simp [ht, hte, ih]
    · simpa [hs] using ih

/-- C2, counterexample: one delivered chunk carrying a done sentinel line
followed by a data line whose payload is valid JSON with a non-empty
extracted delta; the parser makes no on_chunk call for that frame, so the
claimed behaviour (one call per parsed frame with non-empty delta) fails
on this chunk sequence. -/
theorem stream_done_same_chunk_cex :
    "data: \"hi\"" ∈ getline_lines "data: [DONE]\ndata: \"hi\"\n" ∧
    starts_with_data "data: \"hi\"" = true ∧
    parse_stub (data_payload "data: \"hi\"") = .ok (json.str "hi") ∧
    ext_stub (json.str "hi") = .ok "hi" ∧
    stream_emissions parse_stub ext_stub ["data: [DONE]\ndata: \"hi\"\n"] = [] ∧
    claimed_stream_emissions parse_stub ext_stub
      ["data: [DONE]\ndata: \"hi\"\n"] = ["hi"] := by
  refine ⟨?_, rfl, rfl, rfl, rfl, rfl⟩
  rw [show getline_lines "data: [DONE]\ndata: \"hi\"\n" =
    ["data: [DONE]", "data: \"hi\""] from rfl]
  simp

/-- C2 (amended): for every chunk sequence in which no line carries the
done sentinel payload and the schema extraction succeeds on every parsed
frame, the stream handler splits each chunk on newlines, processes only
lines with the data marker, silently drops payloads that are not valid
JSON, and makes exactly one on_chunk call per parsed frame with a
non-empty extracted delta, in arrival order.  (A done line stops the
processing of its chunk, and an extraction failure silently drops the
rest of its chunk, which is what the counterexample exhibits.) -/
theorem stream_emissions_eq_claimed
    (parse : String → Except String json) (ext : json → Except String String)
    (hpe : ∀ j, parse "" ≠ .ok j) :
    ∀ chunks : List String,
    (∀ c ∈ chunks, ∀ line ∈ getline_lines c,
        ¬(starts_with_data line = true ∧ data_payload line = "[DONE]")) →
    (∀ c ∈ chunks, ∀ line ∈ getline_lines c, ∀ j,
        starts_with_data line = true → parse (data_payload line) = .ok j →
        ∃ t, ext j = .ok t) →
    stream_emissions parse ext chunks = claimed_stream_emissions parse ext chunks
  | [], _, _ => rfl
  | c :: cs, hdone, hext => by
    have h1 := process_lines_eq_claimed parse ext hpe (getline_lines c)
      (hdone c (List.mem_cons_self _ _)) (hext c (List.mem_cons_self _ _))
    have ih := stream_emissions_eq_claimed parse ext hpe cs
      (fun c2 h2 => hdone c2 (List.mem_cons_of_mem _ h2))
      (fun c2 h2 => hext c2 (List.mem_cons_of_mem _ h2))
    unfold stream_emissions claimed_stream_emissions at ih ⊢
    simp only [List.flatMap_cons]
    rw [ih]
    unfold process_stream_chunk
    rw [h1]

/-- C2 witness. -/
theorem stream_emissions_eq_claimed_witness :
    stream_emissions parse_stub ext_stub ["data: \"hi\"\ndata: bad\n"] =
      claimed_stream_emissions parse_stub ext_stub ["data: \"hi\"\ndata: bad\n"] ∧
    stream_emissions parse_stub ext_stub ["data: \"hi\"\ndata: bad\n"] = ["hi"] := by
  constructor
  · apply stream_emissions_eq_claimed parse_stub ext_stub
    · intro j hj
      exact Except.noConfusion hj
    · intro c hc line hl
      rw [List.mem_singleton] at hc
      subst hc
      rw [show getline_lines "data: \"hi\"\ndata: bad\n" =
        ["data: \"hi\"", "data: bad"] from rfl] at hl
      simp only [List.mem_cons, List.not_mem_nil, or_false] at hl
      intro hcontra
      rcases hcontra with ⟨hs, hd⟩
      rcases hl with hl | hl
      · subst hl
        exact absurd hd (by decide)
      · subst hl
        exact absurd hd (by decide)
    · intro c hc line hl j hs hp
      rw [List.mem_singleton] at hc
      subst hc
      rw [show getline_lines "data: \"hi\"\ndata: bad\n" =
        ["data: \"hi\"", "data: bad"] from rfl] at hl
      simp only [List.mem_cons, List.not_mem_nil, or_false] at hl
      rcases hl with hl | hl
      · subst hl
        rw [show parse_stub (data_payload "data: \"hi\"") =
          .ok (json.str "hi") from rfl] at hp
        cases hp
        exact ⟨"hi", rfl⟩
      · subst hl
        rw [show parse_stub (data_payload "data: bad") =
          .error "syntax error" from rfl] at hp
        cases hp
  · rfl

/-- Helper: inside one chunk, everything behind a done sentinel line is
dead — appending further lines after the sentinel never changes the
emissions of that chunk. -/
theorem process_lines_stops_at_done
    (parse : String → Except String json) (ext : json → Except String String) :
    ∀ ls ls' : List String,
    process_stream_lines parse ext (ls ++ "data: [DONE]" :: ls') =
      process_stream_lines parse ext (ls ++ ["data: [DONE]"])
  | [], ls' => rfl
  | line :: ls, ls' => by
    have ih := process_lines_stops_at_done parse ext ls ls'
    simp only [List.cons_append, process_stream_lines]
    by_cases hs : starts_with_data line
    · simp only [hs, if_true]
      by_cases hd : data_payload line = "[DONE]"
      · simp [hd]
      · simp only [hd, if_false]
        by_cases hemp : data_payload line = ""
        · simpa [hemp] using ih
        · simp only [ne_eq, hemp, not_false_eq_true, if_true]
          cases hp : parse (data_payload line) with
          | error e => simpa using ih
          | ok j =>
            cases ht : ext j with
            | error e => simp [ht]
            | ok t =>
              by_cases hte : t = ""
              · simp [ht, hte, ih]
              · simp [ht, hte, ih]
    · simpa [hs] using ih

/-- C5, counterexample: a chunk sequence whose first chunk is exactly the
done sentinel line and whose second chunk carries a data payload that is
valid JSON with a non-empty delta; the first chunk emits nothing, yet the
payload of the later chunk still triggers an on_chunk call, contrary to
the claim that no payload in any later chunk does. -/
theorem stream_done_later_chunk_cex :
    process_stream_chunk parse_stub ext_stub "data: [DONE]\n" = [] ∧
    stream_emissions parse_stub ext_stub
      ["data: [DONE]\n", "data: \"hi\"\n"] = ["hi"] :=
  ⟨rfl, rfl⟩

/-- C5 (amended): the done sentinel terminates processing only within the
chunk that delivered it — no data payload later in the same chunk causes
an on_chunk call — but the handler keeps no state across chunks, so the
emissions of a chunk sequence are the concatenation of the per-chunk
emissions and a payload in a later chunk is processed again. -/
theorem done_sentinel_scoped_to_chunk
    (parse : String → Except String json) (ext : json → Except String String) :
    (∀ ls ls' : List String,
      process_stream_lines parse ext (ls ++ "data: [DONE]" :: ls') =
        process_stream_lines parse ext (ls ++ ["data: [DONE]"])) ∧
    (∀ chunks chunks' : List String,
      stream_emissions parse ext (chunks ++ chunks') =
        stream_emissions parse ext chunks ++ stream_emissions parse ext chunks') := by
  constructor
  · exact process_lines_stops_at_done parse ext
  · intro chunks chunks'
    unfold stream_emissions
    induction chunks with
    | nil => rfl
    | cons c cs ih => simp [List.flatMap_cons, ih]

/-- Concrete manager for the closed schema_manager examples: one
registered provider whose file exists. -/
def cex_manager : schema_manager := ⟨[("claude", "/s/claude.json")], "./schemas/"⟩

/-- Concrete filesystem for the closed schema_manager examples. -/
def cex_fs : file_system := ⟨["/s/claude.json"], fun _ => []⟩

/-- C6, counterexample: two consecutive loads of the same provider name
through the manager both succeed, but each call runs make_unique afresh
and the two handles are distinct allocations — nothing is cached and the
loads do not return the same handle, contrary to the claim. -/
theorem create_context_no_cache_cex :
    create_context cex_manager cex_fs "claude" 0 =
      .ok ⟨"/s/claude.json", 0⟩ ∧
    create_context cex_manager cex_fs "claude" 1 =
      .ok ⟨"/s/claude.json", 1⟩ ∧
    (⟨"/s/claude.json", 0⟩ : general_context_handle) ≠
      ⟨"/s/claude.json", 1⟩ := by
  refine ⟨rfl, rfl, ?_⟩
  intro hcontra
  have := congrArg general_context_handle.alloc_id hcontra
  exact absurd this (by decide)

/-- C6 (amended): loading a provider through the manager resolves the
path (registration first, else directory lookup) and checks the file
exists, throwing otherwise; but it caches nothing and constructs a fresh
context on every call, so two consecutive loads of the same provider
name yield distinct handles. -/
theorem create_context_fresh_handles
    (m : schema_manager) (fs : file_system) (name : String) (i j : Nat)
    (hex : fs.files.contains (resolve_schema_path m name) = true)
    (hij : i ≠ j) :
    create_context m fs name i = .ok ⟨resolve_schema_path m name, i⟩ ∧
    create_context m fs name j = .ok ⟨resolve_schema_path m name, j⟩ ∧
    ∀ h1 h2, create_context m fs name i = .ok h1 →
      create_context m fs name j = .ok h2 → h1 ≠ h2 := by
  refine ⟨?_, ?_, ?_⟩
  · unfold create_context
    dsimp only
    rw [if_pos hex]
  · unfold create_context
    dsimp only
    rw [if_pos hex]
  · intro h1 h2 e1 e2 hcontra
    unfold create_context at e1 e2
    dsimp only at e1 e2
    rw [if_pos hex] at e1 e2
    have hh1 : h1 = ⟨resolve_schema_path m name, i⟩ := (Except.ok.inj e1).symm
    have hh2 : h2 = ⟨resolve_schema_path m name, j⟩ := (Except.ok.inj e2).symm
    rw [hh1, hh2] at hcontra
    exact hij (congrArg general_context_handle.alloc_id hcontra)

/-- C6 witness. -/
theorem create_context_fresh_handles_witness :
    cex_fs.files.contains (resolve_schema_path cex_manager "claude") = true ∧
    create_context cex_manager cex_fs "claude" 0 =
      .ok ⟨resolve_schema_path cex_manager "claude", 0⟩ ∧
    create_context cex_manager cex_fs "claude" 1 =
      .ok ⟨resolve_schema_path cex_manager "claude", 1⟩ :=
  ⟨rfl,
   (create_context_fresh_handles cex_manager cex_fs "claude" 0 1 rfl
     (by decide)).1,
   (create_context_fresh_handles cex_manager cex_fs "claude" 0 1 rfl
     (by decide)).2.1⟩

/-- Helper: membership in the registered part of the provider list. -/
theorem mem_registered_part
    (fs : file_system) (name : String) :
    ∀ pp : List (String × String),
    (name ∈ pp.filterMap
        (fun np => if fs.files.contains np.2 then some np.1 else none) ↔
      ∃ p, (name, p) ∈ pp ∧ fs.files.contains p = true)
  | [] => by simp
  | (k, v) :: rest => by
    have ih := mem_registered_part fs name rest
    rw [List.filterMap_cons]
    by_cases hc : fs.files.contains v = true
    · rw [if_pos hc, List.mem_cons, ih]
      constructor
      · rintro (rfl | ⟨p, hp, hcp⟩)
        · exact ⟨v, List.mem_cons_self _ _, hc⟩
        · exact ⟨p, List.mem_cons_of_mem _ hp, hcp⟩
      · rintro ⟨p, hp, hcp⟩
        rcases List.mem_cons.mp hp with hp | hp
        · exact Or.inl (Prod.mk.inj hp).1
        · exact Or.inr ⟨p, hp, hcp⟩
    · rw [if_neg hc, ih]
      constructor
      · rintro ⟨p, hp, hcp⟩
        exact ⟨p, List.mem_cons_of_mem _ hp, hcp⟩
      · rintro ⟨p, hp, hcp⟩
        rcases List.mem_cons.mp hp with hp | hp
        · rcases Prod.mk.inj hp with ⟨h1, h2⟩
          subst h2
          exact absurd hcp hc
        · exact ⟨p, hp, hcp⟩

/-- Helper: the contains test on the collected list is membership. -/
theorem string_contains_iff {l : List String} {a : String} :
    l.contains a = true ↔ a ∈ l := by simp

/-- Helper: membership in the directory-scan part of the provider list. -/
theorem mem_scan_schema_dir (pp : List (String × String)) (name : String) :
    ∀ (entries : List String) (acc : List String),
    (name ∈ scan_schema_dir pp acc entries ↔
      name ∈ acc ∨ ∃ e ∈ entries, path_extension e = ".json" ∧
        path_stem e = name ∧ ∀ np ∈ pp, np.1 ≠ name)
  | [], acc => by simp [scan_schema_dir]
  | e :: rest, acc => by
    unfold scan_schema_dir
    dsimp only
    by_cases hj : path_extension e = ".json"
    · rw [if_pos hj]
      by_cases hreg : (pp.find? (fun np => np.1 == path_stem e)).isNone = true
      · by_cases hacc : acc.contains (path_stem e) = true
        · have hcond : ((pp.find? (fun np => np.1 == path_stem e)).isNone
              && !acc.contains (path_stem e)) = false := by
            rw [hreg, hacc]
            rfl
          have hcond2 : ¬(((pp.find? (fun np => np.1 == path_stem e)).isNone
              && !acc.contains (path_stem e)) = true) := by
            rw [hcond]
            simp
          rw [if_neg hcond2]
          rw [mem_scan_schema_dir pp name rest acc]
          constructor
          · rintro (h | ⟨e2, he2, h1, h2, h3⟩)
            · exact Or.inl h
            · exact Or.inr ⟨e2, List.mem_cons_of_mem _ he2, h1, h2, h3⟩
          · rintro (h | ⟨e2, he2, h1, h2, h3⟩)
            · exact Or.inl h
            · rcases List.mem_cons.mp he2 with he2 | he2
              · subst he2
                rw [← h2]
                exact Or.inl (string_contains_iff.mp hacc)
              · exact Or.inr ⟨e2, he2, h1, h2, h3⟩
        · have hacc2 : acc.contains (path_stem e) = false := by
            revert hacc
            cases acc.contains (path_stem e) <;> simp
          have hcond : ((pp.find? (fun np => np.1 == path_stem e)).isNone
              && !acc.contains (path_stem e)) = true := by
            rw [hreg, hacc2]
            rfl
          rw [if_pos hcond]
          rw [mem_scan_schema_dir pp name rest (acc ++ [path_stem e])]
          have hregp : ∀ np ∈ pp, np.1 ≠ path_stem e := by
            intro np hnp hcontra
            have h0 := List.find?_eq_none.mp
              (Option.isNone_iff_eq_none.mp hreg) np hnp
            apply h0
            simp [hcontra]
          constructor
          · rintro (h | ⟨e2, he2, h1, h2, h3⟩)
            · rcases List.mem_append.mp h with h | h
              · exact Or.inl h
              · have heq : name = path_stem e := List.mem_singleton.mp h
                subst heq
                exact Or.inr ⟨e, List.mem_cons_self _ _, hj, rfl, hregp⟩
            · exact Or.inr ⟨e2, List.mem_cons_of_mem _ he2, h1, h2, h3⟩
          · rintro (h | ⟨e2, he2, h1, h2, h3⟩)
            · exact Or.inl (List.mem_append.mpr (Or.inl h))
            · rcases List.mem_cons.mp he2 with he2 | he2
              · subst he2
                exact Or.inl (List.mem_append.mpr
                  (Or.inr (List.mem_singleton.mpr h2.symm)))
              · exact Or.inr ⟨e2, he2, h1, h2, h3⟩
      · have hreg2 : (pp.find? (fun np => np.1 == path_stem e)).isNone = false := by
          revert hreg
          cases (pp.find? (fun np => np.1 == path_stem e)).isNone <;> simp
        have hcond : ((pp.find? (fun np => np.1 == path_stem e)).isNone
            && !acc.contains (path_stem e)) = false := by
          rw [hreg2]
          rfl
        have hcond2 : ¬(((pp.find? (fun np => np.1 == path_stem e)).isNone
            && !acc.contains (path_stem e)) = true) := by
          rw [hcond]
          simp
        rw [if_neg hcond2]
        rw [mem_scan_schema_dir pp name rest acc]
        have hsome : ∃ np0, pp.find? (fun np => np.1 == path_stem e) = some np0 := by
          cases hfind : pp.find? (fun np => np.1 == path_stem e) with
          | none =>
            rw [hfind] at hreg2
            cases hreg2
          | some np0 => exact ⟨np0, rfl⟩
        obtain ⟨np0, hnp0⟩ := hsome
        have hmem0 := List.mem_of_find?_eq_some hnp0
        have hpred0 : np0.1 = path_stem e := by
          have := List.find?_some hnp0
          simpa using this
        constructor
        · rintro (h | ⟨e2, he2, h1, h2, h3⟩)
          · exact Or.inl h
          · exact Or.inr ⟨e2, List.mem_cons_of_mem _ he2, h1, h2, h3⟩
        · rintro (h | ⟨e2, he2, h1, h2, h3⟩)
          · exact Or.inl h
          · rcases List.mem_cons.mp he2 with he2 | he2
            · subst he2
              rw [h2] at hpred0
              exact absurd hpred0 (h3 np0 hmem0)
            · exact Or.inr ⟨e2, he2, h1, h2, h3⟩
    · rw [if_neg hj]
      rw [mem_scan_schema_dir pp name rest acc]
      constructor
      · rintro (h | ⟨e2, he2, h1, h2, h3⟩)
        · exact Or.inl h
        · exact Or.inr ⟨e2, List.mem_cons_of_mem _ he2, h1, h2, h3⟩
      · rintro (h | ⟨e2, he2, h1, h2, h3⟩)
        · exact Or.inl h
        · rcases List.mem_cons.mp he2 with he2 | he2
          · subst he2
            exact absurd h1 hj
          · exact Or.inr ⟨e2, he2, h1, h2, h3⟩

/-- Helper: the directory scan keeps the collected list duplicate-free. -/
theorem scan_schema_dir_nodup (pp : List (String × String)) :
    ∀ (entries : List String) (acc : List String),
    acc.Nodup → (scan_schema_dir pp acc entries).Nodup
  | [], _, h => h
  | e :: rest, acc, h => by
    unfold scan_schema_dir
    dsimp only
    by_cases hj : path_extension e = ".json"
    · rw [if_pos hj]
      by_cases hcond : ((pp.find? (fun np => np.1 == path_stem e)).isNone
          && !acc.contains (path_stem e)) = true
      · rw [if_pos hcond]
        apply scan_schema_dir_nodup pp rest
        have hnotin : path_stem e ∉ acc := by
          intro hmem
          rcases Bool.and_eq_true_iff.mp hcond with ⟨_, hc2⟩
          rw [string_contains_iff.mpr hmem] at hc2
          cases hc2
        simp [List.nodup_append, h, hnotin]
      · rw [if_neg hcond]
        exact scan_schema_dir_nodup pp rest acc h
    · rw [if_neg hj]
      exact scan_schema_dir_nodup pp rest acc h

/-- Helper: the registered part is a sublist of the registered names. -/
theorem registered_part_sublist (fs : file_system) :
    ∀ pp : List (String × String),
    List.Sublist
      (pp.filterMap (fun np => if fs.files.contains np.2 then some np.1 else none))
      (pp.map Prod.fst)
  | [] => List.Sublist.refl _
  | (k, v) :: rest => by
    rw [List.filterMap_cons, List.map_cons]
    by_cases hc : fs.files.contains v = true
    · rw [if_pos hc]
      exact List.Sublist.cons₂ k (registered_part_sublist fs rest)
    · rw [if_neg hc]
      exact List.Sublist.cons k (registered_part_sublist fs rest)

/-- Concrete manager for the C7 counterexample: the provider x is
registered with a dangling path while the directory holds x.json. -/
def c7_manager : schema_manager := ⟨[("x", "/bad")], "d/"⟩

/-- Concrete filesystem for the C7 counterexample. -/
def c7_fs : file_system :=
  ⟨["d/x.json"], fun d => if d = "d/" then ["x.json"] else []⟩

/-- C7, counterexample: the name x lies in the union the claim describes
(the directory holds x.json with stem x), yet get_available_providers
returns the empty list, because a registered name is excluded from the
directory scan even when its registered file does not exist. -/
theorem providers_union_cex :
    c7_claimed_member c7_manager c7_fs "x" ∧
    get_available_providers c7_manager c7_fs = [] ∧
    "x" ∉ get_available_providers c7_manager c7_fs := by
  refine ⟨Or.inr ⟨"x.json", ?_, rfl, rfl⟩, rfl, ?_⟩
  · show "x.json" ∈ c7_fs.dir_files c7_manager.schema_directory
    rw [show c7_fs.dir_files c7_manager.schema_directory = ["x.json"] from rfl]
    exact List.mem_singleton.mpr rfl
  · rw [show get_available_providers c7_manager c7_fs = ([] : List String)
      from rfl]
    exact List.not_mem_nil "x"

/-- C7 (amended): get_available_providers returns exactly the union of
the registered provider names whose files exist and the stems of the
json files in the schema directory that are not registered at all, and
each name appears at most once. -/
theorem get_available_providers_spec
    (m : schema_manager) (fs : file_system) (name : String)
    (hk : (m.provider_paths.map Prod.fst).Nodup) :
    (name ∈ get_available_providers m fs ↔
      (∃ p, (name, p) ∈ m.provider_paths ∧ p ∈ fs.files) ∨
      (∃ e ∈ fs.dir_files m.schema_directory,
        path_extension e = ".json" ∧ path_stem e = name ∧
        ∀ np ∈ m.provider_paths, np.1 ≠ name)) ∧
    (get_available_providers m fs).Nodup := by
  constructor
  · unfold get_available_providers
    rw [mem_scan_schema_dir m.provider_paths name
      (fs.dir_files m.schema_directory) _]
    rw [mem_registered_part fs name m.provider_paths]
    constructor
    · rintro (⟨p, hp, hcp⟩ | h)
      · exact Or.inl ⟨p, hp, string_contains_iff.mp hcp⟩
      · exact Or.inr h
    · rintro (⟨p, hp, hcp⟩ | h)
      · exact Or.inl ⟨p, hp, string_contains_iff.mpr hcp⟩
      · exact Or.inr h
  · unfold get_available_providers
    apply scan_schema_dir_nodup
    exact (registered_part_sublist fs m.provider_paths).nodup hk

/-- C7 witness. -/
theorem get_available_providers_spec_witness :
    ((["x"] : List String).Nodup) ∧
    (("y" ∈ get_available_providers ⟨[("x", "/good")], "d/"⟩
        ⟨["/good", "d/y.json"], fun d => if d = "d/" then ["y.json"] else []⟩ ↔
      (∃ p, (("y", p) ∈ [("x", "/good")]) ∧
        p ∈ ["/good", "d/y.json"]) ∨
      (∃ e ∈ (if ("d/" : String) = "d/" then ["y.json"] else []),
        path_extension e = ".json" ∧ path_stem e = "y" ∧
        ∀ np ∈ [("x", "/good")], np.1 ≠ "y")) ∧
    (get_available_providers ⟨[("x", "/good")], "d/"⟩
        ⟨["/good", "d/y.json"], fun d => if d = "d/" then ["y.json"] else []⟩).Nodup) :=
  ⟨by decide,
   get_available_providers_spec ⟨[("x", "/good")], "d/"⟩
     ⟨["/good", "d/y.json"], fun d => if d = "d/" then ["y.json"] else []⟩
     "y" (by decide)⟩

/-- Helper: a take followed by a drop at a later index is a sublist. -/
theorem take_drop_sublist {α : Type} :
    ∀ (l : List α) (a b : Nat), a ≤ b →
    List.Sublist (l.take a ++ l.drop b) l
  | l, 0, b, _ => by
    simpa using List.drop_sublist b l
  | [], _ + 1, _, _ => by simp
  | x :: xs, a + 1, 0, h => absurd h (Nat.not_succ_le_zero a)
  | x :: xs, a + 1, b + 1, h => by
    simp only [List.take_succ_cons, List.drop_succ_cons, List.cons_append]
    exact List.Sublist.cons₂ x
      (take_drop_sublist xs a b (Nat.le_of_succ_le_succ h))

/-- Helper: trimming only removes messages. -/
theorem trim_history_sublist (st : provider_state) :
    List.Sublist (trim_history st).history st.history := by
  unfold trim_history
  dsimp only
  split
  · exact List.Sublist.refl _
  · split <;> split
    · exact take_drop_sublist st.history _ _ (Nat.le_add_right _ _)
    · exact List.Sublist.refl _
    · exact take_drop_sublist st.history _ _ (Nat.le_add_right _ _)
    · exact List.Sublist.refl _

/-- Helper: pushing a user message and trimming cannot add assistant
messages: the assistant turns afterwards form a sublist of the assistant
turns before. -/
theorem push_user_trim_filter (st : provider_state) (h0 : List message)
    (c : json) (hh0 : h0 = [] ∨ h0 = st.history) :
    List.Sublist
      ((trim_history { st with history := h0 ++ [⟨"user", c⟩] }).history.filter
        (fun m => m.role == "assistant"))
      (st.history.filter (fun m => m.role == "assistant")) := by
  have h1 := trim_history_sublist { st with history := h0 ++ [⟨"user", c⟩] }
  have h2 := h1.filter (fun m => m.role == "assistant")
  have h3 : (h0 ++ [(⟨"user", c⟩ : message)]).filter
      (fun m => m.role == "assistant") =
      h0.filter (fun m => m.role == "assistant") := by
    rw [List.filter_append,
      show ([(⟨"user", c⟩ : message)]).filter (fun m => m.role == "assistant") =
        [] from rfl,
      List.append_nil]
  rw [h3] at h2
  rcases hh0 with rfl | rfl
  · exact h2.trans (List.nil_sublist _)
  · exact h2

/-- Helper: adding a user turn through any provider context leaves the
assistant turns a sublist of what they were. -/
theorem add_user_dispatch_filter (prov : API_PROVIDER)
    (st : provider_state) (p : prompt) :
    List.Sublist
      ((add_user_message_dispatch prov st p).history.filter
        (fun m => m.role == "assistant"))
      (st.history.filter (fun m => m.role == "assistant")) := by
  cases prov with
  | Unknown => exact List.Sublist.refl _
  | OpenAI =>
    unfold add_user_message_dispatch openai_context.add_user_message
    dsimp only
    by_cases hmt : (!p.is_multi_turn) = true
    · rw [if_pos hmt]
      exact push_user_trim_filter st [] _ (Or.inl rfl)
    · rw [if_neg hmt]
      exact push_user_trim_filter st st.history _ (Or.inr rfl)
  | ClaudeAI =>
    unfold add_user_message_dispatch claudeai_context.add_user_message
    dsimp only
    by_cases hmt : (!p.is_multi_turn) = true
    · rw [if_pos hmt]
      exact push_user_trim_filter st [] _ (Or.inl rfl)
    · rw [if_neg hmt]
      exact push_user_trim_filter st st.history _ (Or.inr rfl)
  | DeepSeek =>
    unfold add_user_message_dispatch deepseek_context.add_user_message
    dsimp only
    by_cases hmt : (!p.is_multi_turn) = true
    · rw [if_pos hmt]
      exact push_user_trim_filter st [] _ (Or.inl rfl)
    · rw [if_neg hmt]
      exact push_user_trim_filter st st.history _ (Or.inr rfl)

/-- Helper: whatever the loop does, the legacy send leaves the context at
the state reached by its initial add_user_message. -/
theorem send_state (prov : API_PROVIDER) (st : provider_state) (p : prompt)
    (transfer_iters : Nat) (flag : Bool) (cancel : Nat → Bool)
    (read_buffer : String) :
    (send prov st p transfer_iters flag cancel read_buffer).2 =
      add_user_message_dispatch prov st p := by
  unfold send
  dsimp only
  split <;> rfl

/-- C8: when the cancellation predicate turns true at some poll during
the transfer (and stays true, as a cancellation flag does), the legacy
chat_api::send aborts and throws the cancellation error, and the
conversation history afterwards carries no assistant turn produced by
the send: its assistant messages are a sublist of the pre-send ones
(the send only adds the user turn and trims). -/
theorem send_cancelled_no_assistant
    (prov : API_PROVIDER) (st : provider_state) (p : prompt)
    (transfer_iters : Nat) (flag : Bool) (cancel : Nat → Bool)
    (read_buffer : String) (t : Nat)
    (hmono : ∀ i j2, i ≤ j2 → cancel i = true → cancel j2 = true)
    (ht : t < transfer_iters) (hc : cancel t = true) :
    (send prov st p transfer_iters flag cancel read_buffer).1 =
      .error "Image request cancelled" ∧
    List.Sublist
      ((send prov st p transfer_iters flag cancel read_buffer).2.history.filter
        (fun m => m.role == "assistant"))
      (st.history.filter (fun m => m.role == "assistant")) := by
  constructor
  · have hcand : (flag || cancel (loop_polls transfer_iters flag cancel)) = true := by
      cases hflag : flag with
      | true => rfl
      | false =>
        unfold loop_polls first_true_below
        rw [if_neg (by simp)]
        cases hf : (List.range transfer_iters).find? cancel with
        | none =>
          exfalso
          have h0 := List.find?_eq_none.mp hf t (List.mem_range.mpr ht)
          exact h0 hc
        | some t0 =>
          have hc0 : cancel t0 = true := List.find?_some hf
          simp only [Bool.false_or]
          exact hmono t0 (t0 + 1) (Nat.le_succ t0) hc0
    unfold send
    dsimp only
    rw [if_pos hcand]
  · rw [send_state]
    exact add_user_dispatch_filter prov st p

/-- C8 witness. -/
theorem send_cancelled_no_assistant_witness :
    (send .DeepSeek ⟨[], 8⟩ { user_message := "hi" } 5 false
        (fun i => decide (1 ≤ i)) "buf").1 =
      .error "Image request cancelled" ∧
    List.Sublist
      ((send .DeepSeek ⟨[], 8⟩ { user_message := "hi" } 5 false
          (fun i => decide (1 ≤ i)) "buf").2.history.filter
        (fun m => m.role == "assistant"))
      (([] : List message).filter (fun m => m.role == "assistant")) :=
  send_cancelled_no_assistant .DeepSeek ⟨[], 8⟩ { user_message := "hi" } 5
    false (fun i => decide (1 ≤ i)) "buf" 1
    (fun i j2 hij hi => decide_eq_true (Nat.le_trans (of_decide_eq_true hi) hij))
    (by decide) (by decide)

/-- The invariant claim C9 ascribes to the provider histories: at most
max_context_length messages, plus one more when a leading system message
sits at the head. -/
def context_invariant (st : provider_state) : Prop :=
  st.history.length ≤ st.max_context_length +
    (if leading_system st.history then 1 else 0)

/-- Helper: trimming establishes the invariant outright, from any
starting history. -/
theorem trim_history_establishes (st : provider_state) :
    context_invariant (trim_history st) := by
  obtain ⟨L, M⟩ := st
  unfold trim_history context_invariant
  dsimp only
  by_cases hle : L.length ≤ M
  · rw [if_pos hle]
    dsimp only
    exact Nat.le_trans hle (Nat.le_add_right _ _)
  · rw [if_neg hle]
    have hgt : M < L.length := Nat.lt_of_not_le hle
    by_cases hsys : leading_system L = true
    · have hp : (if leading_system L = true then 1 else 0) = 1 := by
        simp [hsys]
      rw [hp]
      have hmin : min (M + 1) L.length = M + 1 := Nat.min_eq_left (by omega)
      rw [hmin]
      by_cases hrem : L.length - (M + 1) > 0
      · rw [if_pos hrem]
        dsimp only
        cases L with
        | nil => simp at hgt
        | cons m hs =>
          rw [show List.take 1 (m :: hs) = [m] from rfl]
          rw [show (1 + ((m :: hs).length - (M + 1))) =
            ((m :: hs).length - (M + 1)) + 1 from Nat.add_comm _ _]
          rw [List.drop_succ_cons, List.singleton_append]
          have hsys2 : leading_system
              (m :: hs.drop ((m :: hs).length - (M + 1))) = true := hsys
          rw [if_pos hsys2]
          rw [List.length_cons, List.length_drop]
          simp only [List.length_cons] at hgt hrem ⊢
          omega
      · rw [if_neg hrem]
        dsimp only
        rw [hp]
        omega
    · have hp : (if leading_system L = true then 1 else 0) = 0 := by
        simp [hsys]
      rw [hp, Nat.add_zero]
      have hmin : min M L.length = M := Nat.min_eq_left (Nat.le_of_lt hgt)
      rw [hmin]
      have hrem : L.length - M > 0 := by omega
      rw [if_pos hrem]
      dsimp only
      rw [show List.take 0 L = ([] : List message) from rfl,
        List.nil_append, Nat.zero_add]
      refine Nat.le_trans ?_ (Nat.le_add_right M _)
      rw [List.length_drop]
      omega

/-- Helper: what trimming computes, stated declaratively: an oversized
history keeps its newest max_context_length messages, additionally
keeping the head when it is a system message; messages are only ever
removed from the oldest end behind that preserved head. -/
theorem trim_history_characterization (st : provider_state) :
    (st.history.length ≤ st.max_context_length → trim_history st = st) ∧
    (st.max_context_length < st.history.length →
      trim_history st = { st with history :=
        match st.history with
        | [] => []
        | m :: hs =>
          if m.role == "system" then
            m :: hs.drop (hs.length - st.max_context_length)
          else (m :: hs).drop ((m :: hs).length - st.max_context_length) }) := by
  obtain ⟨L, M⟩ := st
  constructor
  · intro hle
    unfold trim_history
    dsimp only
    rw [if_pos hle]
  · intro hgt
    dsimp only at hgt
    unfold trim_history
    dsimp only
    rw [if_neg (Nat.not_le_of_lt hgt)]
    cases L with
    | nil => simp at hgt
    | cons m hs =>
      dsimp only
      by_cases hsys : leading_system (m :: hs) = true
      · have hp : (if leading_system (m :: hs) = true then 1 else 0) = 1 := by
          simp [hsys]
        rw [hp]
        have hmin : min (M + 1) (m :: hs).length = M + 1 :=
          Nat.min_eq_left (by simp only [List.length_cons] at hgt ⊢; omega)
        rw [hmin]
        have hsys2 : (m.role == "system") = true := hsys
        rw [if_pos hsys2]
        by_cases hrem : (m :: hs).length - (M + 1) > 0
        · rw [if_pos hrem]
          rw [show List.take 1 (m :: hs) = [m] from rfl]
          rw [show (1 + ((m :: hs).length - (M + 1))) =
            ((m :: hs).length - (M + 1)) + 1 from Nat.add_comm _ _]
          rw [List.drop_succ_cons, List.singleton_append]
          rw [show (m :: hs).length - (M + 1) = hs.length - M from by
            rw [List.length_cons]; omega]
        · rw [if_neg hrem]
          rw [List.length_cons] at hrem
          rw [show hs.length - M = 0 from by omega, List.drop_zero]
      · have hp : (if leading_system (m :: hs) = true then 1 else 0) = 0 := by
          simp [hsys]
        rw [hp, Nat.add_zero]
        have hmin : min M (m :: hs).length = M :=
          Nat.min_eq_left (Nat.le_of_lt hgt)
        rw [hmin]
        have hsys2 : (m.role == "system") = false := by
          have h0 : ¬((m.role == "system") = true) := hsys
          cases hb : m.role == "system"
          · rfl
          · exact absurd hb h0
        have hrem : (m :: hs).length - M > 0 := by
          simp only [List.length_cons] at hgt ⊢
          omega
        rw [if_pos hrem]
        rw [if_neg (show ¬((m.role == "system") = true) from by
          rw [hsys2]; exact Bool.false_ne_true)]
        rw [show List.take 0 (m :: hs) = ([] : List message) from rfl,
          List.nil_append, Nat.zero_add]

/-- Helper: the OpenAI response processor preserves the invariant. -/
theorem openai_process_response_inv (st : provider_state) (resp : json)
    (hinv : context_invariant st) :
    ∀ st2, openai_context.process_response st resp = .ok st2 →
      context_invariant st2 := by
  intro st2 h
  unfold openai_context.process_response at h
  dsimp only at h
  split at h
  · split at h
    · split at h
      · exact Except.noConfusion h
      · split at h
        · injection h with h2
          subst h2
          unfold openai_context.add_assistant_message
          exact trim_history_establishes _
        · injection h with h2
          subst h2
          exact hinv
    · injection h with h2
      subst h2
      exact hinv
  · injection h with h2
    subst h2
    exact hinv

/-- Helper: the Claude response processor preserves the invariant. -/
theorem claudeai_process_response_inv (st : provider_state) (resp : json)
    (hinv : context_invariant st) :
    ∀ st2, claudeai_context.process_response st resp = .ok st2 →
      context_invariant st2 := by
  intro st2 h
  unfold claudeai_context.process_response at h
  split at h
  · split at h
    · exact Except.noConfusion h
    · split at h
      · injection h with h2
        subst h2
        exact trim_history_establishes _
      · injection h with h2
        subst h2
        exact hinv
  · injection h with h2
    subst h2
    exact hinv

/-- Helper: the DeepSeek response processor preserves the invariant. -/
theorem deepseek_process_response_inv (st : provider_state) (resp : json)
    (hinv : context_invariant st) :
    ∀ st2, deepseek_context.process_response st resp = .ok st2 →
      context_invariant st2 := by
  intro st2 h
  unfold deepseek_context.process_response at h
  dsimp only at h
  split at h
  · split at h
    · split at h
      · exact Except.noConfusion h
      · injection h with h2
        subst h2
        unfold deepseek_context.add_assistant_message
        exact trim_history_establishes _
    · injection h with h2
      subst h2
      exact hinv
  · injection h with h2
    subst h2
    exact hinv

/-- C9, counterexample: a history holding a system message that is not in
leading position; set_max_context_length (which only re-runs
trim_history) removes that system message together with the other oldest
entries, so trimming does not remove only non-system messages. -/
theorem trim_removes_midlist_system_cex :
    (openai_context.set_max_context_length
        ⟨[⟨"user", json.str "a"⟩, ⟨"system", json.str "s"⟩,
          ⟨"user", json.str "b"⟩], 5⟩ 1).history =
      [⟨"user", json.str "b"⟩] ∧
    (⟨"system", json.str "s"⟩ : message) ∈
      ([⟨"user", json.str "a"⟩, ⟨"system", json.str "s"⟩,
        ⟨"user", json.str "b"⟩] : List message) ∧
    (⟨"system", json.str "s"⟩ : message).role = "system" ∧
    (⟨"system", json.str "s"⟩ : message) ∉
      (openai_context.set_max_context_length
        ⟨[⟨"user", json.str "a"⟩, ⟨"system", json.str "s"⟩,
          ⟨"user", json.str "b"⟩], 5⟩ 1).history := by
  refine ⟨rfl, List.mem_cons_of_mem _ (List.mem_cons_self _ _), rfl, ?_⟩
  intro hmem
  rw [show (openai_context.set_max_context_length
      ⟨[⟨"user", json.str "a"⟩, ⟨"system", json.str "s"⟩,
        ⟨"user", json.str "b"⟩], 5⟩ 1).history =
    [⟨"user", json.str "b"⟩] from rfl] at hmem
  have h2 := List.mem_singleton.mp hmem
  injection h2 with hr _
  exact absurd hr (by decide)

/-- C9 (amended): in every provider context, each history-mutating
operation (add_user_message, add_assistant_message, process_response,
set_max_context_length), applied in a state satisfying it, re-establishes
the invariant that the history holds at most max_context_length messages
plus one preserved leading system message; and trimming removes only the
oldest messages, preserving a leading system message when one sits at
the head (a system message elsewhere in the history enjoys no
protection, which is what the counterexample exhibits). -/
theorem provider_history_invariant
    (st : provider_state) (p : prompt) (msg : String) (resp : json)
    (len : Nat) (hinv : context_invariant st) :
    context_invariant (openai_context.add_user_message st p) ∧
    context_invariant (openai_context.add_assistant_message st msg) ∧
    (∀ st2, openai_context.process_response st resp = .ok st2 →
      context_invariant st2) ∧
    context_invariant (openai_context.set_max_context_length st len) ∧
    context_invariant (claudeai_context.add_user_message st p) ∧
    context_invariant (claudeai_context.add_assistant_message st msg) ∧
    (∀ st2, claudeai_context.process_response st resp = .ok st2 →
      context_invariant st2) ∧
    context_invariant (claudeai_context.set_max_context_length st len) ∧
    context_invariant (deepseek_context.add_user_message st p) ∧
    context_invariant (deepseek_context.add_assistant_message st msg) ∧
    (∀ st2, deepseek_context.process_response st resp = .ok st2 →
      context_invariant st2) ∧
    context_invariant (deepseek_context.set_max_context_length st len) ∧
    (st.history.length ≤ st.max_context_length → trim_history st = st) ∧
    (st.max_context_length < st.history.length →
      trim_history st = { st with history :=
        match st.history with
        | [] => []
        | m :: hs =>
          if m.role == "system" then
            m :: hs.drop (hs.length - st.max_context_length)
          else (m :: hs).drop ((m :: hs).length - st.max_context_length) }) := by
  refine ⟨?_, ?_, openai_process_response_inv st resp hinv, ?_,
          ?_, ?_, claudeai_process_response_inv st resp hinv, ?_,
          ?_, ?_, deepseek_process_response_inv st resp hinv, ?_,
          (trim_history_characterization st).1,
          (trim_history_characterization st).2⟩
  · exact trim_history_establishes _
  · exact trim_history_establishes _
  · exact trim_history_establishes _
  · exact trim_history_establishes _
  · exact trim_history_establishes _
  · exact trim_history_establishes _
  · exact trim_history_establishes _
  · exact trim_history_establishes _
  · exact trim_history_establishes _

/-- C9 witness. -/
theorem provider_history_invariant_witness :
    context_invariant (⟨[⟨"user", json.str "q"⟩], 8⟩ : provider_state) ∧
    context_invariant (openai_context.add_user_message
      ⟨[⟨"user", json.str "q"⟩], 8⟩ { user_message := "hi" }) ∧
    context_invariant (claudeai_context.set_max_context_length
      ⟨[⟨"user", json.str "q"⟩], 8⟩ 1) ∧
    context_invariant (deepseek_context.add_assistant_message
      ⟨[⟨"user", json.str "q"⟩], 8⟩ "ok") :=
  ⟨by unfold context_invariant; decide,
   (provider_history_invariant ⟨[⟨"user", json.str "q"⟩], 8⟩
     { user_message := "hi" } "ok" json.null 1
     (by unfold context_invariant; decide)).1,
   (provider_history_invariant ⟨[⟨"user", json.str "q"⟩], 8⟩
     { user_message := "hi" } "ok" json.null 1
     (by unfold context_invariant; decide)).2.2.2.2.2.2.2.1,
   (provider_history_invariant ⟨[⟨"user", json.str "q"⟩], 8⟩
     { user_message := "hi" } "ok" json.null 1
     (by unfold context_invariant; decide)).2.2.2.2.2.2.2.2.2.1⟩

/-- C10: when the parsed JSON response carries a top-level error member
whose message is a string, get_assistant_reply returns a failure
api_response carrying exactly that message, and the context state it
returns is the input state unchanged — process_response never runs on
that path. -/
theorem get_assistant_reply_error_path
    (prov : API_PROVIDER) (st : provider_state) (response_json : json)
    (msg : String)
    (herr : response_json.contains "error" = true)
    (hmsg : (response_json.member "error").at_key "message" =
      .ok (json.str msg)) :
    get_assistant_reply prov st response_json = (⟨false, "", msg⟩, st) := by
  have hem : error_message_of response_json = .ok msg := by
    unfold error_message_of
    rw [hmsg]
    rfl
  unfold get_assistant_reply
  rw [if_pos herr, hem]

/-- C10 witness. -/
theorem get_assistant_reply_error_path_witness :
    get_assistant_reply .OpenAI ⟨[⟨"user", json.str "q"⟩], 8⟩
      (json.obj [("error", json.obj [("message", json.str "Invalid API key")])]) =
    (⟨false, "", "Invalid API key"⟩,
     (⟨[⟨"user", json.str "q"⟩], 8⟩ : provider_state)) :=
  get_assistant_reply_error_path .OpenAI ⟨[⟨"user", json.str "q"⟩], 8⟩
    (json.obj [("error", json.obj [("message", json.str "Invalid API key")])])
    "Invalid API key" rfl rfl

end hyni
